import Mathlib

/-!
Verification development for the Oxford Lieder 2021 concert-list script
(`oxford_lieder_2021-extract_concert_ticket_details.py`).

The script is a linear extract-transform-join-export pipeline over two
saved HTML pages.  We shallowly embed the pure core of each stage:

* strings are Lean `String`s; the Python string operations used by the
  script (`strip`, `split`, `lower`, `replace`, `in`, `join`,
  `startswith`) are modelled by executable helpers on the underlying
  character lists;
* DOM access is abstracted away: a table row (`TicketRow`) carries the
  hrefs of its anchors and the text of its `td` cells, an event block
  (`EventItem`) carries the text nodes the extractor reads;
* fallible operations (`strptime`, `float`, tuple unpacking, dict key
  lookup) return `Option`/`Except` values;
* the pandas `explode` / inner `merge` steps of `main` are modelled as
  list operations with the documented pandas semantics.
-/

/-- Python `str.strip()`: drop whitespace from both ends. -/
def pyStrip (s : String) : String :=
  String.mk (((s.data.dropWhile Char.isWhitespace).reverse.dropWhile Char.isWhitespace).reverse)

/-- Split a character list at every character satisfying `p`
(Python `str.split(sep)` semantics: `n` separators produce `n+1` pieces). -/
def splitPred (p : Char → Bool) : List Char → List (List Char)
  | [] => [[]]
  | c :: rest =>
    let r := splitPred p rest
    if p c then [] :: r
    else
      match r with
      | [] => [[c]]
      | h :: t => (c :: h) :: t

/-- Python `s.split(sep)` for a one-character separator. -/
def pySplit (sep : Char) (s : String) : List String :=
  (splitPred (fun c => c == sep) s.data).map String.mk

/-- Python `str.lower()` (ASCII case folding suffices for the inputs used). -/
def strLower (s : String) : String :=
  String.mk (s.data.map Char.toLower)

/-- Python `s.replace(ch, "")`: remove every occurrence of one character. -/
def removeChar (ch : Char) (s : String) : String :=
  String.mk (s.data.filter (fun c => c != ch))

/-- Python `s.startswith(pre)` / the CSS attribute selector `[href^=pre]`. -/
def pyStartsWith (pre s : String) : Bool :=
  pre.data.isPrefixOf s.data

/-- Python `sep.join(parts)`. -/
def pyJoin (sep : String) : List String → String
  | [] => ""
  | [x] => x
  | x :: rest => x ++ sep ++ pyJoin sep rest

/-- Numeric value of a string of decimal digits (`""` counts as 0,
matching the integer part of Python float literals such as `".5"`). -/
def decDigitsVal (s : String) : Nat :=
  s.data.foldl (fun n c => 10 * n + (c.toNat - 48)) 0

/-- Python `in` on strings: `sub` occurs as a contiguous substring of `l`. -/
def listContainsSub (l sub : List Char) : Bool :=
  match l with
  | [] => sub.isEmpty
  | _ :: rest => sub.isPrefixOf l || listContainsSub rest sub

/-- `return_if_venue_has_streaming` (source lines 159-173): true when any
of the probe words (just `"stream"`) occurs in the lowercased venue type. -/
def return_if_venue_has_streaming (venue_type : String) : Bool :=
  ["stream"].any (fun venue => listContainsSub (strLower venue_type).data venue.data)

/-- Python `int(float(s))` for plain decimal literals
(optional sign, digits, optional fractional part): parse and truncate
toward zero.  `none` models the `ValueError` raised on other inputs. -/
def pyFloatTruncInt (s : String) : Option Int :=
  let sgn : Int := if pyStartsWith "-" s then -1 else 1
  let body : String := if pyStartsWith "-" s || pyStartsWith "+" s then String.mk (s.data.drop 1) else s
  match pySplit '.' body with
  | [ip] =>
    if ip ≠ "" ∧ ip.data.all Char.isDigit then some (sgn * (decDigitsVal ip : Int)) else none
  | [ip, fp] =>
    if (ip ≠ "" ∨ fp ≠ "") ∧ ip.data.all Char.isDigit ∧ fp.data.all Char.isDigit then
      some (sgn * (decDigitsVal ip : Int))
    else none
  | _ => none

/-- The price computation of `extract_ticket_price_options` (source lines
200-202): `int(float(cell_text.strip().replace("£", "")))`. -/
def parse_ticket_price_gbp (s : String) : Option Int :=
  pyFloatTruncInt (removeChar '£' (pyStrip s))

/-- Month-abbreviation table of `strptime`'s `%b` directive
(case-insensitive, English locale). -/
def monthAbbrevNumber (s : String) : Option Nat :=
  match strLower s with
  | "jan" => some 1
  | "feb" => some 2
  | "mar" => some 3
  | "apr" => some 4
  | "may" => some 5
  | "jun" => some 6
  | "jul" => some 7
  | "aug" => some 8
  | "sep" => some 9
  | "oct" => some 10
  | "nov" => some 11
  | "dec" => some 12
  | _ => none

/-- Gregorian leap-year rule used by `datetime`'s day-of-month validation. -/
def isLeapYear (y : Nat) : Bool :=
  y % 4 == 0 && (y % 100 != 0 || y % 400 == 0)

/-- Number of days in a month, as validated by `datetime`. -/
def daysInMonth (y m : Nat) : Nat :=
  if m = 2 then (if isLeapYear y then 29 else 28)
  else if m = 4 ∨ m = 6 ∨ m = 9 ∨ m = 11 then 30
  else 31

/-- Zero-pad a number to two digits (`strftime` `%d`/`%m`/`%H`/`%M`). -/
def pad2 (n : Nat) : String :=
  if n < 10 then "0" ++ toString n else toString n

/-- `get_event_date_and_time` (source lines 105-118), applied to the text
node next to the time icon: `strptime(text.strip(), "%d %b %Y %H:%M")`,
then re-rendered as a `YYYY-MM-DD` date and an `HH:MM` time.  `none`
models the `ValueError` raised when the text does not match the format.
The `%d`/`%H`/`%M` directives accept one or two digits, `%Y` exactly four,
and `datetime` validates the ranges (day against the month length). -/
def get_event_date_and_time (timeText : String) : Option (String × String) :=
  match ((splitPred Char.isWhitespace (pyStrip timeText).data).map String.mk).filter (fun t => t ≠ "") with
  | [dS, monS, yS, hmS] =>
    match monthAbbrevNumber monS with
    | none => none
    | some mon =>
      if dS ≠ "" ∧ dS.data.length ≤ 2 ∧ dS.data.all Char.isDigit ∧
         yS.data.length = 4 ∧ yS.data.all Char.isDigit then
        match pySplit ':' hmS with
        | [hS, mS] =>
          if hS ≠ "" ∧ hS.data.length ≤ 2 ∧ hS.data.all Char.isDigit ∧
             mS ≠ "" ∧ mS.data.length ≤ 2 ∧ mS.data.all Char.isDigit then
            let d := decDigitsVal dS
            let y := decDigitsVal yS
            let h := decDigitsVal hS
            let mi := decDigitsVal mS
            if 1 ≤ y ∧ 1 ≤ d ∧ d ≤ daysInMonth y mon ∧ h ≤ 23 ∧ mi ≤ 59 then
              some (toString y ++ "-" ++ pad2 mon ++ "-" ++ pad2 d, pad2 h ++ ":" ++ pad2 mi)
            else none
          else none
        | _ => none
      else none
  | _ => none

/-- A row of the single-ticket table: the hrefs of its anchors (in
document order) and the text of its `td` cells. -/
structure TicketRow where
  anchors : List String
  cells : List String
deriving DecidableEq

/-- The per-row values assembled into `ticket_data` (source lines 193-202). -/
structure RowData where
  ticket_type : String
  venue_type : String
  is_streaming : Bool
  ticket_price_gbp : Int
deriving DecidableEq

/-- `row.select_one('a[href^="/event"]')` (source line 191): first anchor
whose href starts with `/event`, if any. -/
def selectEventAnchor (anchors : List String) : Option String :=
  anchors.find? (fun h => pyStartsWith "/event" h)

/-- Build `ticket_data` from a row (source lines 192-202): take `td` cells
2-3, split cell 2's stripped text on newlines into ticket type and venue
type, derive the streaming flag, and parse cell 3 as the price.  `none`
models the `IndexError`/`ValueError` raised on a malformed row. -/
def rowTicketData (row : TicketRow) : Option RowData :=
  match (row.cells.drop 2).take 2 with
  | [c0, c1] =>
    match (pySplit '\n' (pyStrip c0)).take 2 with
    | [tt, vt] =>
      match parse_ticket_price_gbp c1 with
      | some p => some ⟨tt, vt, return_if_venue_has_streaming vt, p⟩
      | none => none
    | _ => none
  | _ => none

/-- The list-valued record kept per event key in `ticket_details`. -/
structure TicketOptionLists where
  ticket_type : List String
  venue_type : List String
  is_streaming : List Bool
  ticket_price_gbp : List Int
deriving DecidableEq

/-- Failure modes of `extract_ticket_price_options`:
`parseError` models the `IndexError`/`ValueError` of per-row extraction,
`keyError` the `KeyError` of appending to a missing dictionary key. -/
inductive ExtractError where
  | parseError
  | keyError
deriving DecidableEq

/-- Dictionary lookup in the `ticket_details` accumulator (`key in dict` /
`dict[key]`), modelled on an insertion-ordered association list. -/
def lookupTicket (details : List (String × TicketOptionLists)) (k : String) :
    Option TicketOptionLists :=
  match details with
  | [] => none
  | (k', d) :: rest => if k' = k then some d else lookupTicket rest k

/-- The continuation branch (source lines 212-214): append the row's
values to the per-field lists stored under key `k`. -/
def appendTicket (details : List (String × TicketOptionLists)) (k : String)
    (rd : RowData) : List (String × TicketOptionLists) :=
  details.map (fun e =>
    if e.1 = k then
      (e.1, ⟨e.2.ticket_type ++ [rd.ticket_type], e.2.venue_type ++ [rd.venue_type],
             e.2.is_streaming ++ [rd.is_streaming],
             e.2.ticket_price_gbp ++ [rd.ticket_price_gbp]⟩)
    else e)

/-- The row loop of `extract_ticket_price_options` (source lines 190-214),
with the `ticket_details` dictionary and `last_event_url_key` threaded
through explicitly. -/
def extractTicketLoop (details : List (String × TicketOptionLists)) (last : String) :
    List TicketRow → Except ExtractError (List (String × TicketOptionLists))
  | [] => Except.ok details
  | row :: rest =>
    match rowTicketData row with
    | none => Except.error ExtractError.parseError
    | some rd =>
      match selectEventAnchor row.anchors with
      | some k =>
        if (lookupTicket details k).isSome then
          extractTicketLoop details k rest
        else
          extractTicketLoop
            (details ++ [(k, ⟨[rd.ticket_type], [rd.venue_type], [rd.is_streaming],
                              [rd.ticket_price_gbp]⟩)]) k rest
      | none =>
        if (lookupTicket details last).isSome then
          extractTicketLoop (appendTicket details last rd) last rest
        else Except.error ExtractError.keyError

/-- `extract_ticket_price_options` (source lines 177-215): start from an
empty dictionary and the empty-string last key. -/
def extract_ticket_price_options (rows : List TicketRow) :
    Except ExtractError (List (String × TicketOptionLists)) :=
  extractTicketLoop [] "" rows

/-- One row of the exploded ticket dataframe (`main`, source line 335):
the event key together with one ticket option. -/
structure ExplodedTicketRow where
  key : String
  ticket_type : String
  venue_type : String
  is_streaming : Bool
  ticket_price_gbp : Int
deriving DecidableEq

/-- Index-aligned zip of the four per-field lists of a ticket group. -/
def zipTicketLists : List String → List String → List Bool → List Int →
    List (String × String × Bool × Int)
  | t :: ts, v :: vs, s :: ss, p :: ps => (t, v, s, p) :: zipTicketLists ts vs ss ps
  | _, _, _, _ => []

/-- Explode one ticket group: the i-th entries of the four lists form the
i-th output row, all carrying the group's key. -/
def explodeEntry (k : String) (d : TicketOptionLists) : List ExplodedTicketRow :=
  (zipTicketLists d.ticket_type d.venue_type d.is_streaming d.ticket_price_gbp).map
    (fun x => ⟨k, x.1, x.2.1, x.2.2.1, x.2.2.2⟩)

/-- Concatenation of the images of `f`, in order (`List.flatMap`). -/
def concatMapL {α β : Type} (f : α → List β) : List α → List β
  | [] => []
  | a :: l => f a ++ concatMapL f l

/-- The `apply(pd.Series.explode)` step of `main` (source lines 330-335):
turn the keyed mapping of list-valued fields into one row per
(key, index) pair, groups in insertion order. -/
def explodeTickets (details : List (String × TicketOptionLists)) : List ExplodedTicketRow :=
  concatMapL (fun e => explodeEntry e.1 e.2) details

/-- The text nodes of one event block that `extract_event_metadata` reads:
the time-icon text, the heading text and its link href, the blurb sibling,
the venue sibling, the artist list items, and the category anchor hrefs. -/
structure EventItem where
  timeText : String
  titleText : String
  hrefShort : String
  blurbText : String
  venueText : String
  artistTexts : List String
  categoryHrefs : List String
deriving DecidableEq

/-- An event record as built by `extract_event_metadata` (source lines
231-247): `dict.fromkeys` seeds every field with `None` (here `none`),
then each field is assigned. -/
structure EventRecord where
  date : Option String
  time : Option String
  title : Option String
  artists : Option String
  description : Option String
  venue : Option String
  interested : Option Int
  categories : Option String
  short_url : Option String
  long_url : Option String
deriving DecidableEq

/-- `dict.fromkeys(list(event_fields))`: every field still the placeholder. -/
def emptyEventRecord : EventRecord :=
  ⟨none, none, none, none, none, none, none, none, none, none⟩

/-- `get_event_title_and_urls` (source lines 132-143): trimmed heading
text, the heading link's href, and the fixed base URL plus that href. -/
def get_event_title_and_urls (item : EventItem) : String × String × String :=
  (pyStrip item.titleText, item.hrefShort, "https://www.oxfordlieder.co.uk" ++ item.hrefShort)

/-- `get_event_description_blurb` (source lines 121-129): strip the
sibling text and apply NFKC normalization (passed in as `nfkc`, since the
Unicode tables are outside the embedding). -/
def get_event_description_blurb (nfkc : String → String) (item : EventItem) : String :=
  nfkc (pyStrip item.blurbText)

/-- `get_event_venue` (source lines 146-156): last `|`-separated segment
of the sibling text, trimmed. -/
def get_event_venue (item : EventItem) : String :=
  pyStrip ((pySplit '|' item.venueText).getLastD "")

/-- `get_event_artist_list` (source lines 77-87): trimmed text of each
artist list item. -/
def get_event_artist_list (item : EventItem) : List String :=
  item.artistTexts.map pyStrip

/-- `parse_qs(href)["?category"][0]` (source lines 99-101): split the href
on `&`, find the first pair whose key is `?category`, and take its value;
`none` models the `KeyError` when the parameter is absent or blank
(`parse_qs` drops blank values by default). -/
def parseCategoryHref (href : String) : Option String :=
  match (pySplit '&' href).find? (fun p => pyStartsWith "?category=" p) with
  | some p =>
    let v := String.mk (p.data.drop 10)
    if v = "" then none else some v
  | none => none

/-- `get_event_categories` (source lines 90-102): the category value of
every category anchor, in document order; fails if any anchor lacks one. -/
def get_event_categories (hrefs : List String) : Option (List String) :=
  match hrefs with
  | [] => some []
  | h :: rest =>
    match parseCategoryHref h with
    | none => none
    | some c =>
      match get_event_categories rest with
      | none => none
      | some cs => some (c :: cs)

/-- The loop body of `extract_event_metadata` (source lines 231-247):
seed the record with placeholders, then assign every field; `none` models
a propagated extraction error. -/
def build_event_record (nfkc : String → String) (item : EventItem) : Option EventRecord :=
  match get_event_date_and_time item.timeText with
  | none => none
  | some dt =>
    match get_event_categories item.categoryHrefs with
    | none => none
    | some cats =>
      some { emptyEventRecord with
        date := some dt.1
        time := some dt.2
        title := some (get_event_title_and_urls item).1
        short_url := some (get_event_title_and_urls item).2.1
        long_url := some (get_event_title_and_urls item).2.2
        description := some (get_event_description_blurb nfkc item)
        venue := some (get_event_venue item)
        artists := some (pyJoin "\n" (get_event_artist_list item))
        categories := some (pyJoin "\n" cats)
        interested := some 0 }

/-- `extract_event_metadata` (source lines 219-248): one record per event
block, in order; the first failing block aborts the run. -/
def extract_event_metadata (nfkc : String → String) :
    List EventItem → Option (List EventRecord)
  | [] => some []
  | item :: rest =>
    match build_event_record nfkc item with
    | none => none
    | some r =>
      match extract_event_metadata nfkc rest with
      | none => none
      | some rs => some (r :: rs)

/-- A merged row (`main`, source lines 338-340), columns in `ALL_COLUMNS`
order: the event fields of one `EventRecord` and the ticket fields of one
matching exploded ticket row. -/
structure MergedRow where
  date : Option String
  time : Option String
  title : Option String
  artists : Option String
  description : Option String
  venue : Option String
  ticket_type : String
  venue_type : String
  is_streaming : Bool
  ticket_price_gbp : Int
  interested : Option Int
  categories : Option String
  short_url : Option String
  long_url : Option String
deriving DecidableEq

/-- Combine one event record with one ticket row sharing its key. -/
def mkMergedRow (e : EventRecord) (t : ExplodedTicketRow) : MergedRow :=
  ⟨e.date, e.time, e.title, e.artists, e.description, e.venue,
   t.ticket_type, t.venue_type, t.is_streaming, t.ticket_price_gbp,
   e.interested, e.categories, e.short_url, e.long_url⟩

/-- `pd.merge(event_df, ticket_df, on=short_url, how="inner")` (source
lines 338-340): for each event row in order, one output row per ticket
row whose key equals the event's `short_url`. -/
def mergeInner (events : List EventRecord) (tickets : List ExplodedTicketRow) :
    List MergedRow :=
  concatMapL
    (fun e => (tickets.filter (fun t => decide (e.short_url = some t.key))).map (mkMergedRow e))
    events

/-- Outcome of one file write in the export block. -/
inductive WriteOutcome where
  | success
  | osError (msg : String)
deriving DecidableEq

/-- The export block of `main` (source lines 348-373): write the CSV,
then the HTML; a single `except OSError` handler prints one error line
(its f-string always interpolates `export_csv`), and only when both
writes succeed are the two success lines printed, each ending with the
absolute path (`os.path.abspath`, modelled by `abspath`). -/
def exportReports (csvWrite htmlWrite : WriteOutcome) (numRows numCols : Nat)
    (abspath : String → String) : List String :=
  let export_csv := "oxford_lieder-2021-ticket_list" ++ ".csv"
  let export_html := "oxford_lieder-2021-ticket_list" ++ ".html"
  match csvWrite with
  | WriteOutcome.osError e => ["There was an error exporting " ++ export_csv ++ ": " ++ e]
  | WriteOutcome.success =>
    match htmlWrite with
    | WriteOutcome.osError e => ["There was an error exporting " ++ export_csv ++ ": " ++ e]
    | WriteOutcome.success =>
      ["CSV export succeeded [" ++ toString numRows ++ " rows, " ++ toString numCols ++
         " columns]: " ++ abspath export_csv,
       "HTML export succeeded [" ++ toString numRows ++ " rows, " ++ toString numCols ++
         " columns]: " ++ abspath export_html]

/-- The alignment invariant of a ticket group: the four per-field lists
have equal length, and at least one entry. -/
def ticketListsAligned (d : TicketOptionLists) : Prop :=
  d.venue_type.length = d.ticket_type.length ∧
  d.is_streaming.length = d.ticket_type.length ∧
  d.ticket_price_gbp.length = d.ticket_type.length ∧
  1 ≤ d.ticket_type.length

/-- Every field of an event record has been assigned (is no longer the
`dict.fromkeys` placeholder), and `interested` is the constant 0. -/
def eventRecordComplete (r : EventRecord) : Prop :=
  r.date.isSome = true ∧ r.time.isSome = true ∧ r.title.isSome = true ∧
  r.artists.isSome = true ∧ r.description.isSome = true ∧ r.venue.isSome = true ∧
  r.categories.isSome = true ∧ r.short_url.isSome = true ∧ r.long_url.isSome = true ∧
  r.interested = some 0

/-- First ticket row of the grouping example: primary row for `/event/1`,
price £10. -/
def rowK1 : TicketRow :=
  ⟨["/event/1"], ["a", "b", "Standard\nIn-person only", "£10.00"]⟩

/-- Continuation row (no event anchor), price £5. -/
def rowContinuation5 : TicketRow :=
  ⟨[], ["a", "b", "Concession\nIn-person only", "£5"]⟩

/-- Primary row for `/event/2`, price £20, streaming venue. -/
def rowK2 : TicketRow :=
  ⟨["/event/2"], ["a", "b", "Standard\nDigital Concert Hall - Live stream only", "£20"]⟩

/-- A second primary row for `/event/1` (duplicate key), price £99. -/
def rowK1dup : TicketRow :=
  ⟨["/event/1"], ["a", "b", "Standard\nIn-person only", "£99"]⟩

/-- Continuation row (no event anchor), price £7. -/
def rowContinuation7 : TicketRow :=
  ⟨[], ["a", "b", "Concession\nIn-person only", "£7"]⟩

/-- A concrete well-formed event block for instantiating the extraction
theorems. -/
def eventItem0 : EventItem :=
  ⟨"12 Oct 2021 19:30", " Recital A ", "/event/1", " A blurb ",
   "Wed 12 | Holywell Music Room", [" Artist One "], ["?category=Concert"]⟩

/-- A concrete fully-populated event record keyed by `/event/1`. -/
def eventRecord0 : EventRecord :=
  ⟨some "2021-10-12", some "19:30", some "Recital A", some "Artist One", some "A blurb",
   some "Holywell Music Room", some 0, some "Concert", some "/event/1",
   some "https://www.oxfordlieder.co.uk/event/1"⟩

/-- A concrete exploded ticket row keyed by `/event/1`. -/
def explodedRow0 : ExplodedTicketRow :=
  ⟨"/event/1", "Standard", "In-person only", false, 10⟩

/-- A concrete two-option ticket group. -/
def ticketLists2 : TicketOptionLists :=
  ⟨["Standard", "Concession"], ["In-person only", "In-person only"], [false, false], [10, 5]⟩

lemma isPrefixOf_iff_append (sub : List Char) : ∀ l : List Char,
    sub.isPrefixOf l = true ↔ ∃ t, l = sub ++ t := by
  induction sub with
  | nil =>
    intro l
    simp [List.isPrefixOf]
  | cons a as ih =>
    intro l
    cases l with
    | nil =>
      simp [List.isPrefixOf]
    | cons b bs =>
      simp only [List.isPrefixOf, Bool.and_eq_true, beq_iff_eq, ih bs]
      constructor
      · rintro ⟨rfl, t, rfl⟩
        exact ⟨t, rfl⟩
      · rintro ⟨t, h⟩
        injection h with h1 h2
        exact ⟨h1.symm, t, h2⟩

lemma listContainsSub_iff (sub : List Char) : ∀ l : List Char,
    listContainsSub l sub = true ↔ ∃ p q, l = p ++ sub ++ q := by
  intro l
  induction l with
  | nil =>
    simp only [listContainsSub, List.isEmpty_iff]
    constructor
    · rintro rfl
      exact ⟨[], [], rfl⟩
    · rintro ⟨p, q, h⟩
      rcases List.append_eq_nil.mp (List.append_eq_nil.mp h.symm).1 with ⟨-, h2⟩
      exact h2
  | cons c rest ih =>
    simp only [listContainsSub, Bool.or_eq_true, isPrefixOf_iff_append, ih]
    constructor
    · rintro (⟨t, h⟩ | ⟨p, q, rfl⟩)
      · exact ⟨[], t, by simpa using h⟩
      · exact ⟨c :: p, q, rfl⟩
    · rintro ⟨p, q, h⟩
      cases p with
      | nil =>
        exact Or.inl ⟨q, by simpa using h⟩
      | cons x xs =>
        injection h with h1 h2
        exact Or.inr ⟨xs, q, h2⟩

/-- C8: `return_if_venue_has_streaming` returns true exactly when the
lowercased venue-type string contains the substring `"stream"`; in
particular it accepts `"In-person & Streaming (Digital Concert Hall)"`
and rejects `"In-person only"`. -/
theorem return_if_venue_has_streaming_spec :
    (∀ s : String, return_if_venue_has_streaming s = true ↔
        ∃ p q, (strLower s).data = p ++ "stream".data ++ q)
    ∧ return_if_venue_has_streaming "In-person & Streaming (Digital Concert Hall)" = true
    ∧ return_if_venue_has_streaming "In-person only" = false := by
  refine ⟨?_, rfl, rfl⟩
  intro s
  show (listContainsSub (strLower s).data "stream".data || false) = true ↔ _
  rw [Bool.or_false]
  exact listContainsSub_iff "stream".data (strLower s).data

/-- C5: the date/time text `"12 Oct 2021 19:30"` parses to the date
`"2021-10-12"` and the time `"19:30"`, and a malformed string missing the
year yields a parse failure rather than a default. -/
theorem get_event_date_and_time_spec :
    get_event_date_and_time "12 Oct 2021 19:30" = some ("2021-10-12", "19:30")
    ∧ get_event_date_and_time "12 Oct 19:30" = none :=
  ⟨rfl, rfl⟩

/-- C6: price parsing strips the currency symbol and truncates the
decimal value toward zero: `"£12.50"` gives 12 (and `"£12.99"` also gives
12, so the value is truncated, not rounded), `"£9"` gives 9. -/
theorem parse_ticket_price_gbp_spec :
    parse_ticket_price_gbp "£12.50" = some 12
    ∧ parse_ticket_price_gbp "£9" = some 9
    ∧ parse_ticket_price_gbp "£12.99" = some 12 :=
  ⟨rfl, rfl, rfl⟩

/-- C1: grouping of ticket table rows.  A primary row (anchor href
starting `/event`) seeds a new group; a continuation row appends to the
most recently seen key; a primary row with an already-present key is
skipped, but still becomes the "last seen" key.  On the rows
`[R1(key=/event/1, £10), R2(no key, £5), R3(key=/event/2, £20)]` the
result has exactly the keys `/event/1` and `/event/2`, with price lists
`[10, 5]` and `[20]`; on `[S1(key=K, £10), S2(key=K again, £99),
S3(no key, £7)]` the duplicate row is dropped and the result is the
single group `K ↦ [10, 7]`. -/
theorem extract_ticket_price_options_grouping :
    extract_ticket_price_options [rowK1, rowContinuation5, rowK2] =
      Except.ok
        [("/event/1", ⟨["Standard", "Concession"], ["In-person only", "In-person only"],
                       [false, false], [10, 5]⟩),
         ("/event/2", ⟨["Standard"], ["Digital Concert Hall - Live stream only"],
                       [true], [20]⟩)]
    ∧ extract_ticket_price_options [rowK1, rowK1dup, rowContinuation7] =
      Except.ok
        [("/event/1", ⟨["Standard", "Concession"], ["In-person only", "In-person only"],
                       [false, false], [10, 7]⟩)] :=
  ⟨rfl, rfl⟩

/-- C10: if the first row of the input has no anchor with an `/event`
href, `extract_ticket_price_options` never returns a mapping; when that
row's cells are well-formed, the failure is precisely the dictionary
lookup error on the initial empty-string key. -/
theorem extract_first_row_continuation_fails (r : TicketRow) (rest : List TicketRow)
    (h : selectEventAnchor r.anchors = none) :
    (∀ m, extract_ticket_price_options (r :: rest) ≠ Except.ok m)
    ∧ (∀ rd, rowTicketData r = some rd →
        extract_ticket_price_options (r :: rest) = Except.error ExtractError.keyError) := by
  cases hrd : rowTicketData r with
  | none =>
    have he : extract_ticket_price_options (r :: rest) = Except.error ExtractError.parseError := by
      simp [extract_ticket_price_options, extractTicketLoop, hrd]
    refine ⟨?_, ?_⟩
    · intro m hm
      rw [he] at hm
      cases hm
    · intro rd hrd2
      cases hrd2
  | some rd =>
    have he : extract_ticket_price_options (r :: rest) = Except.error ExtractError.keyError := by
      simp [extract_ticket_price_options, extractTicketLoop, hrd, h, lookupTicket]
    refine ⟨?_, ?_⟩
    · intro m hm
      rw [he] at hm
      cases hm
    · intro rd' _
      exact he

/-- C10 witness: a concrete well-formed continuation-only input hits the
lookup error. -/
theorem extract_first_row_continuation_fails_witness :
    extract_ticket_price_options [rowContinuation5] = Except.error ExtractError.keyError :=
  (extract_first_row_continuation_fails rowContinuation5 [] rfl).2
    ⟨"Concession", "In-person only", false, 5⟩ rfl

/-- C4 counterexample: when the CSV write succeeds and the HTML write
fails, the single error line names the CSV path, not the path of the file
whose write failed (the HTML path does not occur in the output at all). -/
theorem export_report_claim_cex :
    exportReports WriteOutcome.success (WriteOutcome.osError "disk full") 42 14
        (fun f => "/work/" ++ f) =
      ["There was an error exporting oxford_lieder-2021-ticket_list.csv: disk full"]
    ∧ listContainsSub
        "There was an error exporting oxford_lieder-2021-ticket_list.csv: disk full".data
        "oxford_lieder-2021-ticket_list.html".data = false :=
  ⟨rfl, rfl⟩

/-- C4 (amended): if either write fails with an OS error, the program
prints exactly one error line interpolating the CSV target path (for both
failure sites) and the underlying OS error, and no success line;
otherwise it prints the two success lines with row/column counts and the
absolute paths of both outputs. -/
theorem export_report_behavior (e : String) (w : WriteOutcome) (numRows numCols : Nat)
    (abspath : String → String) :
    exportReports (WriteOutcome.osError e) w numRows numCols abspath =
      ["There was an error exporting oxford_lieder-2021-ticket_list.csv: " ++ e]
    ∧ exportReports WriteOutcome.success (WriteOutcome.osError e) numRows numCols abspath =
      ["There was an error exporting oxford_lieder-2021-ticket_list.csv: " ++ e]
    ∧ exportReports WriteOutcome.success WriteOutcome.success numRows numCols abspath =
      ["CSV export succeeded [" ++ toString numRows ++ " rows, " ++ toString numCols ++
         " columns]: " ++ abspath "oxford_lieder-2021-ticket_list.csv",
       "HTML export succeeded [" ++ toString numRows ++ " rows, " ++ toString numCols ++
         " columns]: " ++ abspath "oxford_lieder-2021-ticket_list.html"] :=
  ⟨rfl, rfl, rfl⟩

lemma appendTicket_aligned (details : List (String × TicketOptionLists)) (k : String)
    (rd : RowData) (h : ∀ k' d, (k', d) ∈ details → ticketListsAligned d) :
    ∀ k' d, (k', d) ∈ appendTicket details k rd → ticketListsAligned d := by
  intro k' d hd
  unfold appendTicket at hd
  rw [List.mem_map] at hd
  obtain ⟨e, he, heq⟩ := hd
  have hal : ticketListsAligned e.2 := h e.1 e.2 he
  by_cases hk : e.1 = k
  · rw [if_pos hk] at heq
    injection heq with h1 h2
    subst h2
    obtain ⟨a1, a2, a3, a4⟩ := hal
    refine ⟨?_, ?_, ?_, ?_⟩ <;> simp [List.length_append, a1, a2, a3]
  · rw [if_neg hk] at heq
    have h2 : e.2 = d := congrArg Prod.snd heq
    rw [← h2]
    exact hal

lemma extractTicketLoop_aligned (rows : List TicketRow) :
    ∀ (details : List (String × TicketOptionLists)) (last : String)
      (m : List (String × TicketOptionLists)),
      (∀ k d, (k, d) ∈ details → ticketListsAligned d) →
      extractTicketLoop details last rows = Except.ok m →
      ∀ k d, (k, d) ∈ m → ticketListsAligned d := by
  induction rows with
  | nil =>
    intro details last m hinv hok
    injection hok with hok
    subst hok
    exact hinv
  | cons row rest ih =>
    intro details last m hinv hok
    unfold extractTicketLoop at hok
    cases hrd : rowTicketData row with
    | none =>
      rw [hrd] at hok
      cases hok
    | some rd =>
      rw [hrd] at hok
      dsimp only at hok
      cases ha : selectEventAnchor row.anchors with
      | some k =>
        rw [ha] at hok
        dsimp only at hok
        by_cases hl : (lookupTicket details k).isSome = true
        · rw [if_pos hl] at hok
          exact ih details k m hinv hok
        · rw [if_neg hl] at hok
          refine ih _ k m ?_ hok
          intro k' d hd
          rcases List.mem_append.mp hd with hd1 | hd1
          · exact hinv k' d hd1
          · rcases List.mem_singleton.mp hd1 with heq
            have h2 : d = ⟨[rd.ticket_type], [rd.venue_type], [rd.is_streaming],
                           [rd.ticket_price_gbp]⟩ := congrArg Prod.snd heq
            subst h2
            exact ⟨rfl, rfl, rfl, le_refl 1⟩
      | none =>
        rw [ha] at hok
        dsimp only at hok
        by_cases hl : (lookupTicket details last).isSome = true
        · rw [if_pos hl] at hok
          exact ih _ last m (appendTicket_aligned details last rd hinv) hok
        · rw [if_neg hl] at hok
          cases hok

/-- C9: whenever `extract_ticket_price_options` returns a mapping, every
group's four per-field lists have the same length, and that length is at
least one. -/
theorem extract_ticket_price_options_aligned (rows : List TicketRow)
    (m : List (String × TicketOptionLists))
    (h : extract_ticket_price_options rows = Except.ok m) :
    ∀ k d, (k, d) ∈ m → ticketListsAligned d :=
  extractTicketLoop_aligned rows [] "" m
    (fun k d hd => absurd hd (List.not_mem_nil (k, d))) h

/-- C9 witness: the invariant, instantiated on a concrete run. -/
theorem extract_ticket_price_options_aligned_witness :
    ticketListsAligned ⟨["Standard"], ["In-person only"], [false], [10]⟩ :=
  extract_ticket_price_options_aligned [rowK1]
    [("/event/1", ⟨["Standard"], ["In-person only"], [false], [10]⟩)] rfl
    "/event/1" ⟨["Standard"], ["In-person only"], [false], [10]⟩
    (List.mem_singleton.mpr rfl)

lemma build_event_record_complete (nfkc : String → String) (item : EventItem)
    (r : EventRecord) (h : build_event_record nfkc item = some r) :
    eventRecordComplete r := by
  unfold build_event_record at h
  cases hdt : get_event_date_and_time item.timeText with
  | none =>
    rw [hdt] at h
    cases h
  | some dt =>
    rw [hdt] at h
    dsimp only at h
    cases hc : get_event_categories item.categoryHrefs with
    | none =>
      rw [hc] at h
      cases h
    | some cats =>
      rw [hc] at h
      dsimp only at h
      injection h with h
      subst h
      exact ⟨rfl, rfl, rfl, rfl, rfl, rfl, rfl, rfl, rfl, rfl⟩

/-- C7: whenever `extract_event_metadata` returns normally, it returns
exactly one record per event block, every field of every record has been
assigned (no `dict.fromkeys` placeholder remains), and `interested` is
the constant 0. -/
theorem extract_event_metadata_complete (nfkc : String → String) (items : List EventItem)
    (recs : List EventRecord) (h : extract_event_metadata nfkc items = some recs) :
    recs.length = items.length ∧ ∀ r ∈ recs, eventRecordComplete r := by
  induction items generalizing recs with
  | nil =>
    injection h with h
    subst h
    exact ⟨rfl, fun r hr => absurd hr (List.not_mem_nil r)⟩
  | cons item rest ih =>
    unfold extract_event_metadata at h
    cases hb : build_event_record nfkc item with
    | none =>
      rw [hb] at h
      cases h
    | some r =>
      rw [hb] at h
      dsimp only at h
      cases he : extract_event_metadata nfkc rest with
      | none =>
        rw [he] at h
        cases h
      | some rs =>
        rw [he] at h
        dsimp only at h
        injection h with h
        subst h
        obtain ⟨hlen, hall⟩ := ih rs he
        refine ⟨by simp [hlen], ?_⟩
        intro r' hr'
        rcases List.mem_cons.mp hr' with hr1 | hr1
        · rw [hr1]
          exact build_event_record_complete nfkc item r hb
        · exact hall r' hr1

/-- C7 witness: a concrete one-block listing yields one complete record. -/
theorem extract_event_metadata_complete_witness :
    ∃ recs, extract_event_metadata (fun s => s) [eventItem0] = some recs ∧
      recs.length = [eventItem0].length ∧ ∀ r ∈ recs, eventRecordComplete r :=
  ⟨_, rfl, extract_event_metadata_complete (fun s => s) [eventItem0] _ rfl⟩

lemma explodeEntry_key (k : String) (d : TicketOptionLists) (r : ExplodedTicketRow)
    (h : r ∈ explodeEntry k d) : r.key = k := by
  unfold explodeEntry at h
  rw [List.mem_map] at h
  obtain ⟨x, -, rfl⟩ := h
  rfl

lemma filter_explodeEntry (k : String) (d : TicketOptionLists) (K : String) :
    (explodeEntry k d).filter (fun r => decide (r.key = K)) =
      if k = K then explodeEntry k d else [] := by
  by_cases h : k = K
  · rw [if_pos h]
    apply List.filter_eq_self.mpr
    intro r hr
    rw [explodeEntry_key k d r hr, h]
    simp
  · rw [if_neg h]
    apply List.filter_eq_nil_iff.mpr
    intro r hr
    rw [explodeEntry_key k d r hr]
    simp [h]

lemma explodeTickets_cons (e : String × TicketOptionLists)
    (rest : List (String × TicketOptionLists)) :
    explodeTickets (e :: rest) = explodeEntry e.1 e.2 ++ explodeTickets rest := rfl

lemma filter_explodeTickets_eq_nil (details : List (String × TicketOptionLists)) (K : String)
    (h : details.countP (fun e => decide (e.1 = K)) = 0) :
    (explodeTickets details).filter (fun r => decide (r.key = K)) = [] := by
  induction details with
  | nil => rfl
  | cons e rest ih =>
    rw [List.countP_cons] at h
    rw [explodeTickets_cons, List.filter_append, filter_explodeEntry]
    by_cases he : e.1 = K
    · simp [he] at h
    · rw [if_neg he, List.nil_append]
      apply ih
      simpa [he] using h

lemma filter_explodeTickets (details : List (String × TicketOptionLists)) (K : String)
    (d : TicketOptionLists) (hmem : (K, d) ∈ details)
    (hone : details.countP (fun e => decide (e.1 = K)) = 1) :
    (explodeTickets details).filter (fun r => decide (r.key = K)) = explodeEntry K d := by
  induction details with
  | nil => exact absurd hmem (List.not_mem_nil (K, d))
  | cons e rest ih =>
    rw [explodeTickets_cons, List.filter_append, filter_explodeEntry]
    rw [List.countP_cons] at hone
    by_cases he : e.1 = K
    · simp only [he, decide_True, if_true] at hone
      have hzero : rest.countP (fun e => decide (e.1 = K)) = 0 := by omega
      rw [if_pos he, filter_explodeTickets_eq_nil rest K hzero, List.append_nil]
      rcases List.mem_cons.mp hmem with h1 | h1
      · rw [← h1]
      · exfalso
        have hpos : 0 < rest.countP (fun e => decide (e.1 = K)) :=
          List.countP_pos_iff.mpr ⟨(K, d), h1, by simp⟩
        omega
    · rw [if_neg he, List.nil_append]
      have hmem' : (K, d) ∈ rest := by
        rcases List.mem_cons.mp hmem with h1 | h1
        · exact absurd (congrArg Prod.fst h1.symm) he
        · exact h1
      apply ih hmem'
      simpa [he] using hone

lemma zipTicketLists_length : ∀ (a b : List String) (c : List Bool) (e : List Int),
    b.length = a.length → c.length = a.length → e.length = a.length →
    (zipTicketLists a b c e).length = a.length := by
  intro a
  induction a with
  | nil =>
    intro b c e hb hc he
    simp only [List.length_nil] at hb hc he
    rw [List.length_eq_zero] at hb hc he
    subst hb; subst hc; subst he
    rfl
  | cons x xs ih =>
    intro b c e hb hc he
    cases b with
    | nil => simp at hb
    | cons y ys =>
      cases c with
      | nil => simp at hc
      | cons z zs =>
        cases e with
        | nil => simp at he
        | cons w ws =>
          simp only [zipTicketLists, List.length_cons]
          rw [ih ys zs ws (by simpa using hb) (by simpa using hc) (by simpa using he)]

lemma zipTicketLists_get? : ∀ (a b : List String) (c : List Bool) (e : List Int) (i : Nat),
    i < a.length → i < b.length → i < c.length → i < e.length →
    (zipTicketLists a b c e).get? i =
      some (a.getD i "", b.getD i "", c.getD i false, e.getD i 0) := by
  intro a
  induction a with
  | nil =>
    intro b c e i ha
    simp at ha
  | cons x xs ih =>
    intro b c e i ha hb hc he
    cases b with
    | nil => simp at hb
    | cons y ys =>
      cases c with
      | nil => simp at hc
      | cons z zs =>
        cases e with
        | nil => simp at he
        | cons w ws =>
          cases i with
          | zero => rfl
          | succ j =>
            simp only [zipTicketLists, List.get?, List.getD_cons_succ]
            exact ih ys zs ws j (by simpa using ha) (by simpa using hb)
              (by simpa using hc) (by simpa using he)

/-- C3: exploding a ticket mapping that contains the key `K` exactly once,
with all four field lists of length `N`, yields exactly `N` rows for `K`,
each carrying key `K`, and the `i`-th row holds the `i`-th element of
each field list. -/
theorem explode_tickets_aligned (details : List (String × TicketOptionLists)) (K : String)
    (d : TicketOptionLists) (N : Nat)
    (hmem : (K, d) ∈ details)
    (hone : details.countP (fun e => decide (e.1 = K)) = 1)
    (h1 : d.ticket_type.length = N) (h2 : d.venue_type.length = N)
    (h3 : d.is_streaming.length = N) (h4 : d.ticket_price_gbp.length = N) :
    ((explodeTickets details).filter (fun r => decide (r.key = K))).length = N
    ∧ (∀ r ∈ (explodeTickets details).filter (fun r => decide (r.key = K)), r.key = K)
    ∧ ∀ i, i < N →
        ((explodeTickets details).filter (fun r => decide (r.key = K))).get? i =
          some ⟨K, d.ticket_type.getD i "", d.venue_type.getD i "",
                d.is_streaming.getD i false, d.ticket_price_gbp.getD i 0⟩ := by
  rw [filter_explodeTickets details K d hmem hone]
  refine ⟨?_, ?_, ?_⟩
  · unfold explodeEntry
    rw [List.length_map,
      zipTicketLists_length d.ticket_type d.venue_type d.is_streaming d.ticket_price_gbp
        (h2.trans h1.symm) (h3.trans h1.symm) (h4.trans h1.symm)]
    exact h1
  · intro r hr
    exact explodeEntry_key K d r hr
  · intro i hi
    unfold explodeEntry
    rw [List.get?_map,
      zipTicketLists_get? d.ticket_type d.venue_type d.is_streaming d.ticket_price_gbp i
        (h1 ▸ hi) (h2 ▸ hi) (h3 ▸ hi) (h4 ▸ hi)]
    rfl

/-- C3 witness: a concrete two-option group explodes to two rows. -/
theorem explode_tickets_aligned_witness :
    ((explodeTickets [("/event/1", ticketLists2)]).filter
        (fun r => decide (r.key = "/event/1"))).length = 2 :=
  (explode_tickets_aligned [("/event/1", ticketLists2)] "/event/1" ticketLists2 2
    (List.mem_singleton.mpr rfl) rfl rfl rfl rfl rfl).1

lemma mem_concatMapL {α β : Type} (f : α → List β) (l : List α) (b : β) :
    b ∈ concatMapL f l ↔ ∃ a, a ∈ l ∧ b ∈ f a := by
  induction l with
  | nil =>
    simp [concatMapL]
  | cons x xs ih =>
    simp only [concatMapL, List.mem_append, ih, List.mem_cons]
    constructor
    · rintro (hb | ⟨a, ha, hb⟩)
      · exact ⟨x, Or.inl rfl, hb⟩
      · exact ⟨a, Or.inr ha, hb⟩
    · rintro ⟨a, ha | ha, hb⟩
      · subst ha
        exact Or.inl hb
      · exact Or.inr ⟨a, ha, hb⟩

lemma mergeInner_cons (e : EventRecord) (es : List EventRecord)
    (tickets : List ExplodedTicketRow) :
    mergeInner (e :: es) tickets =
      (tickets.filter (fun t => decide (e.short_url = some t.key))).map (mkMergedRow e) ++
        mergeInner es tickets := rfl

lemma filter_map_mkMergedRow (e : EventRecord) (l : List ExplodedTicketRow)
    (k : Option String) :
    (l.map (mkMergedRow e)).filter (fun r => decide (r.short_url = k)) =
      if e.short_url = k then l.map (mkMergedRow e) else [] := by
  by_cases h : e.short_url = k
  · rw [if_pos h]
    apply List.filter_eq_self.mpr
    intro r hr
    rw [List.mem_map] at hr
    obtain ⟨t, -, rfl⟩ := hr
    show decide ((mkMergedRow e t).short_url = k) = true
    have hk : (mkMergedRow e t).short_url = e.short_url := rfl
    rw [hk, h]
    simp
  · rw [if_neg h]
    apply List.filter_eq_nil_iff.mpr
    intro r hr
    rw [List.mem_map] at hr
    obtain ⟨t, -, rfl⟩ := hr
    have hk : (mkMergedRow e t).short_url = e.short_url := rfl
    simp [hk, h]

lemma mergeInner_filter_length (events : List EventRecord)
    (tickets : List ExplodedTicketRow) (k : Option String) :
    ((mergeInner events tickets).filter (fun r => decide (r.short_url = k))).length =
      events.countP (fun x => decide (x.short_url = k)) *
        (tickets.filter (fun t => decide (k = some t.key))).length := by
  induction events with
  | nil =>
    simp [mergeInner, concatMapL]
  | cons e es ih =>
    rw [mergeInner_cons, List.filter_append, List.length_append, ih, List.countP_cons,
      filter_map_mkMergedRow]
    by_cases h : e.short_url = k
    · rw [if_pos h, List.length_map]
      have hpred : (fun t => decide (e.short_url = some t.key)) =
          (fun t : ExplodedTicketRow => decide (k = some t.key)) := by
        funext t
        rw [h]
      rw [hpred]
      simp only [h, decide_True, if_true]
      ring
    · rw [if_neg h]
      have hd : decide (e.short_url = k) = false := decide_eq_false h
      rw [hd]
      simp

lemma countP_one_unique {α : Type} (p : α → Bool) (l : List α) (h : l.countP p = 1)
    (a b : α) (ha : a ∈ l) (hb : b ∈ l) (hpa : p a = true) (hpb : p b = true) :
    a = b := by
  induction l with
  | nil => exact absurd ha (List.not_mem_nil a)
  | cons x xs ih =>
    rw [List.countP_cons] at h
    by_cases hx : p x = true
    · rw [if_pos hx] at h
      have h0 : xs.countP p = 0 := by omega
      have hz := List.countP_eq_zero.mp h0
      rcases List.mem_cons.mp ha with rfl | ha'
      · rcases List.mem_cons.mp hb with rfl | hb'
        · rfl
        · exact absurd hpb (hz b hb')
      · exact absurd hpa (hz a ha')
    · rw [if_neg hx] at h
      have ha' : a ∈ xs := by
        rcases List.mem_cons.mp ha with rfl | h'
        · exact absurd hpa hx
        · exact h'
      have hb' : b ∈ xs := by
        rcases List.mem_cons.mp hb with rfl | h'
        · exact absurd hpb hx
        · exact h'
      exact ih (by omega) ha' hb'

lemma mergeInner_mem (events : List EventRecord) (tickets : List ExplodedTicketRow)
    (r : MergedRow) :
    r ∈ mergeInner events tickets ↔
      ∃ e, e ∈ events ∧ ∃ t, t ∈ tickets ∧ e.short_url = some t.key ∧ r = mkMergedRow e t := by
  unfold mergeInner
  rw [mem_concatMapL]
  constructor
  · rintro ⟨e, he, hr⟩
    rw [List.mem_map] at hr
    obtain ⟨t, ht, rfl⟩ := hr
    rw [List.mem_filter] at ht
    exact ⟨e, he, t, ht.1, of_decide_eq_true ht.2, rfl⟩
  · rintro ⟨e, he, t, ht, hkey, rfl⟩
    exact ⟨e, he, List.mem_map_of_mem _ (List.mem_filter.mpr ⟨ht, decide_eq_true hkey⟩)⟩

/-- C2: the merge of event records with exploded ticket rows is an inner
join on the event key.  For an event whose `short_url` occurs exactly
once among the events, the number of merged rows carrying its key equals
the number of exploded ticket rows matching it (so an event matching no
ticket row contributes zero rows), every merged row with its key is that
event combined with one matching ticket row (so it shares all the event's
fields), and every merged row whatsoever arises from a matched
event/ticket pair (so a ticket row matching no event contributes zero
rows). -/
theorem merged_df_inner_join (events : List EventRecord) (tickets : List ExplodedTicketRow) :
    (∀ e, e ∈ events →
      events.countP (fun x => decide (x.short_url = e.short_url)) = 1 →
        ((mergeInner events tickets).filter
            (fun r => decide (r.short_url = e.short_url))).length =
          (tickets.filter (fun t => decide (e.short_url = some t.key))).length
        ∧ ∀ r, r ∈ mergeInner events tickets → r.short_url = e.short_url →
            ∃ t, t ∈ tickets ∧ e.short_url = some t.key ∧ r = mkMergedRow e t)
    ∧ (∀ r, r ∈ mergeInner events tickets →
        ∃ e, e ∈ events ∧ ∃ t, t ∈ tickets ∧ e.short_url = some t.key ∧ r = mkMergedRow e t) := by
  constructor
  · intro e he hone
    constructor
    · rw [mergeInner_filter_length events tickets e.short_url, hone, one_mul]
    · intro r hr hkey
      obtain ⟨e', he', t, ht, hmatch, hreq⟩ := (mergeInner_mem events tickets r).mp hr
      have hk' : e'.short_url = e.short_url := by
        have : (mkMergedRow e' t).short_url = e'.short_url := rfl
        rw [← this, ← hreq]
        exact hkey
      have heq : e' = e :=
        countP_one_unique (fun x => decide (x.short_url = e.short_url)) events hone e' e
          he' he (decide_eq_true hk') (by simp)
      subst heq
      exact ⟨t, ht, hmatch, hreq⟩
  · exact fun r hr => (mergeInner_mem events tickets r).mp hr

/-- C2 witness: a concrete one-event, one-ticket-row instance of the
inner-join count. -/
theorem merged_df_inner_join_witness :
    ((mergeInner [eventRecord0] [explodedRow0]).filter
        (fun r => decide (r.short_url = eventRecord0.short_url))).length =
      ([explodedRow0].filter
        (fun t => decide (eventRecord0.short_url = some t.key))).length :=
  ((merged_df_inner_join [eventRecord0] [explodedRow0]).1 eventRecord0
    (List.mem_singleton.mpr rfl) (by decide)).1
